import Mathlib

/-!
Verification development for the plant-monitor application
(`src/plant_mon.py`): a shallow embedding of its storage model, date
logic and request handlers, with theorems checking the specification's
claims against the embedded code.

Conventions of the embedding:
* SQLite rows become Lean structures; the two tables (`plants`,
  `water_logs`) become lists inside a `Store`.
* SQLite `ORDER BY <text column>` with the default BINARY collation is
  byte-wise lexicographic comparison; timestamps are ASCII, so we model
  it with a lexicographic order on `List Char` via `Char.toNat`.
  `COLLATE NOCASE` folds the 26 ASCII upper-case letters first.
* Python `datetime` values become the `DT` structure (proleptic
  Gregorian civil fields plus microseconds and an awareness flag);
  `datetime.fromisoformat` becomes `parse_iso` (covering the grammars
  the application reads and writes: `YYYY-MM-DD`,
  `YYYY-MM-DDTHH:MM:SS`, optional `.ffffff` fraction, optional
  `+00:00` offset); `datetime.isoformat` becomes `fmtIso`;
  `timedelta(days=k)` addition becomes `addDays` (civil-day arithmetic
  via the standard days-from-civil conversion); `timedelta.days` is
  floor division of the microsecond difference by one day.
* Request handlers become pure functions `Store → inputs → Store × response`,
  with the frozen current instant passed in as a parameter.
-/

/-! ## Byte-wise lexicographic order on character lists (SQLite BINARY) -/

def lexLtB : List Char → List Char → Bool
  | _, [] => false
  | [], _ :: _ => true
  | a :: as, b :: bs =>
      if a.toNat < b.toNat then true
      else if b.toNat < a.toNat then false
      else lexLtB as bs

theorem char_toNat_inj {a b : Char} (h : a.toNat = b.toNat) : a = b :=
  Char.eq_of_val_eq (UInt32.eq_of_toBitVec_eq (BitVec.eq_of_toNat_eq h))

theorem lexLtB_nil_right (l : List Char) : lexLtB l [] = false := by
  cases l <;> rfl

theorem lexLtB_cons_iff {a b : Char} {as bs : List Char} :
    lexLtB (a :: as) (b :: bs) = true ↔
      a.toNat < b.toNat ∨ (a = b ∧ lexLtB as bs = true) := by
  simp only [lexLtB]
  by_cases hab : a.toNat < b.toNat
  · rw [if_pos hab]
    exact ⟨fun _ => Or.inl hab, fun _ => rfl⟩
  · rw [if_neg hab]
    by_cases hba : b.toNat < a.toNat
    · rw [if_pos hba]
      constructor
      · intro h
        exact absurd h (by simp)
      · rintro (h | ⟨rfl, -⟩)
        · exact absurd h hab
        · exact absurd hba (Nat.lt_irrefl _)
    · rw [if_neg hba]
      have heq : a = b := char_toNat_inj (by omega)
      subst heq
      constructor
      · intro h
        exact Or.inr ⟨rfl, h⟩
      · rintro (h | ⟨-, h⟩)
        · exact absurd h hab
        · exact h

theorem lexLtB_irrefl : ∀ l : List Char, lexLtB l l = false
  | [] => rfl
  | a :: as => by simp [lexLtB, lexLtB_irrefl as]

theorem lexLtB_trans : ∀ {l1 l2 l3 : List Char},
    lexLtB l1 l2 = true → lexLtB l2 l3 = true → lexLtB l1 l3 = true
  | l1, l2, [], _, h23 => absurd h23 (by simp [lexLtB_nil_right])
  | [], l2, c :: cs, _, _ => rfl
  | a :: as, l2, c :: cs, h12, h23 => by
    cases l2 with
    | nil => exact absurd h12 (by simp [lexLtB_nil_right])
    | cons b bs =>
      rw [lexLtB_cons_iff] at h12 h23 ⊢
      rcases h12 with h12 | ⟨rfl, h12⟩
      · rcases h23 with h23 | ⟨rfl, h23⟩
        · exact Or.inl (Nat.lt_trans h12 h23)
        · exact Or.inl h12
      · rcases h23 with h23 | ⟨rfl, h23⟩
        · exact Or.inl h23
        · exact Or.inr ⟨rfl, lexLtB_trans h12 h23⟩

theorem lexLtB_trichotomy : ∀ l1 l2 : List Char,
    lexLtB l1 l2 = true ∨ l1 = l2 ∨ lexLtB l2 l1 = true
  | [], [] => Or.inr (Or.inl rfl)
  | [], _ :: _ => Or.inl rfl
  | _ :: _, [] => Or.inr (Or.inr rfl)
  | a :: as, b :: bs => by
    by_cases hab : a.toNat < b.toNat
    · exact Or.inl (lexLtB_cons_iff.mpr (Or.inl hab))
    · by_cases hba : b.toNat < a.toNat
      · exact Or.inr (Or.inr (lexLtB_cons_iff.mpr (Or.inl hba)))
      · have heq : a = b := char_toNat_inj (by omega)
        subst heq
        rcases lexLtB_trichotomy as bs with h | h | h
        · exact Or.inl (lexLtB_cons_iff.mpr (Or.inr ⟨rfl, h⟩))
        · exact Or.inr (Or.inl (by rw [h]))
        · exact Or.inr (Or.inr (lexLtB_cons_iff.mpr (Or.inr ⟨rfl, h⟩)))

theorem lexLtB_asymm {l1 l2 : List Char} (h : lexLtB l1 l2 = true) :
    lexLtB l2 l1 = false := by
  by_contra hc
  have h2 : lexLtB l2 l1 = true := by
    cases hx : lexLtB l2 l1
    · exact absurd hx hc
    · rfl
  have := lexLtB_trans h h2
  rw [lexLtB_irrefl] at this
  exact Bool.false_ne_true this

theorem eq_of_not_lexLtB {l1 l2 : List Char}
    (h1 : lexLtB l1 l2 = false) (h2 : lexLtB l2 l1 = false) : l1 = l2 := by
  rcases lexLtB_trichotomy l1 l2 with h | h | h
  · rw [h] at h1; exact absurd h1 (by simp)
  · exact h
  · rw [h] at h2; exact absurd h2 (by simp)

/-- Comparing an equal-length block followed by tails splits into a
comparison of the blocks then of the tails. -/
theorem lexLtB_append_iff : ∀ {l1 l2 : List Char} (r1 r2 : List Char),
    l1.length = l2.length →
    (lexLtB (l1 ++ r1) (l2 ++ r2) = true ↔
      (lexLtB l1 l2 = true ∨ (l1 = l2 ∧ lexLtB r1 r2 = true)))
  | [], [], r1, r2, _ => by simp [lexLtB_nil_right]
  | a :: as, b :: bs, r1, r2, h => by
    simp only [List.length_cons, Nat.succ_inj] at h
    simp only [List.cons_append]
    rw [lexLtB_cons_iff, lexLtB_cons_iff]
    constructor
    · rintro (hlt | ⟨rfl, htl⟩)
      · exact Or.inl (Or.inl hlt)
      · rcases (lexLtB_append_iff r1 r2 h).mp htl with h2 | ⟨heq, h2⟩
        · exact Or.inl (Or.inr ⟨rfl, h2⟩)
        · exact Or.inr ⟨by rw [heq], h2⟩
    · rintro ((hlt | ⟨rfl, htl⟩) | ⟨heq, h2⟩)
      · exact Or.inl hlt
      · exact Or.inr ⟨rfl, (lexLtB_append_iff r1 r2 h).mpr (Or.inl htl)⟩
      · rcases List.cons.injEq .. ▸ heq with ⟨rfl, rfl⟩
        exact Or.inr ⟨rfl, (lexLtB_append_iff r1 r2 h).mpr (Or.inr ⟨rfl, h2⟩)⟩

theorem append_eq_append_iff {l1 l2 r1 r2 : List Char}
    (h : l1.length = l2.length) :
    (l1 ++ r1 = l2 ++ r2) ↔ (l1 = l2 ∧ r1 = r2) := by
  constructor
  · intro he
    exact List.append_inj he h
  · rintro ⟨rfl, rfl⟩
    rfl

/-! ## Zero-padded decimal rendering of numeric fields -/

def dChar : Nat → Char
  | 0 => '0' | 1 => '1' | 2 => '2' | 3 => '3' | 4 => '4'
  | 5 => '5' | 6 => '6' | 7 => '7' | 8 => '8' | _ => '9'

def pad2 (n : Nat) : List Char := [dChar (n / 10), dChar (n % 10)]

def pad4 (n : Nat) : List Char := pad2 (n / 100) ++ pad2 (n % 100)

def pad6 (n : Nat) : List Char :=
  pad2 (n / 10000) ++ pad2 (n / 100 % 100) ++ pad2 (n % 100)

set_option maxRecDepth 10000 in
theorem pad2_lt : ∀ a b : Fin 100,
    (lexLtB (pad2 a.val) (pad2 b.val) = true ↔ a.val < b.val) := by decide

set_option maxRecDepth 10000 in
theorem pad2_eq : ∀ a b : Fin 100,
    (pad2 a.val = pad2 b.val ↔ a.val = b.val) := by decide

theorem pad2_length (n : Nat) : (pad2 n).length = 2 := rfl

theorem pad2_lt_iff {a b : Nat} (ha : a < 100) (hb : b < 100) :
    (lexLtB (pad2 a) (pad2 b) = true ↔ a < b) :=
  pad2_lt ⟨a, ha⟩ ⟨b, hb⟩

theorem pad2_eq_iff {a b : Nat} (ha : a < 100) (hb : b < 100) :
    (pad2 a = pad2 b ↔ a = b) :=
  pad2_eq ⟨a, ha⟩ ⟨b, hb⟩

theorem pad4_lt_iff {a b : Nat} (ha : a < 10000) (hb : b < 10000) :
    (lexLtB (pad4 a) (pad4 b) = true ↔ a < b) := by
  unfold pad4
  rw [lexLtB_append_iff _ _ (by simp [pad2_length]),
    pad2_lt_iff (by omega) (by omega), pad2_eq_iff (by omega) (by omega),
    pad2_lt_iff (by omega) (by omega)]
  omega

theorem pad4_eq_iff {a b : Nat} (ha : a < 10000) (hb : b < 10000) :
    (pad4 a = pad4 b ↔ a = b) := by
  unfold pad4
  rw [append_eq_append_iff (by simp [pad2_length]),
    pad2_eq_iff (by omega) (by omega), pad2_eq_iff (by omega) (by omega)]
  omega

theorem pad6_lt_iff {a b : Nat} (ha : a < 1000000) (hb : b < 1000000) :
    (lexLtB (pad6 a) (pad6 b) = true ↔ a < b) := by
  unfold pad6
  rw [List.append_assoc, List.append_assoc,
    lexLtB_append_iff _ _ (by simp [pad2_length]),
    lexLtB_append_iff _ _ (by simp [pad2_length]),
    pad2_lt_iff (by omega) (by omega), pad2_eq_iff (by omega) (by omega),
    pad2_lt_iff (by omega) (by omega), pad2_eq_iff (by omega) (by omega),
    pad2_lt_iff (by omega) (by omega)]
  omega

theorem pad6_eq_iff {a b : Nat} (ha : a < 1000000) (hb : b < 1000000) :
    (pad6 a = pad6 b ↔ a = b) := by
  unfold pad6
  rw [List.append_assoc, List.append_assoc,
    append_eq_append_iff (by simp [pad2_length]),
    append_eq_append_iff (by simp [pad2_length]),
    pad2_eq_iff (by omega) (by omega), pad2_eq_iff (by omega) (by omega),
    pad2_eq_iff (by omega) (by omega)]
  omega

/-! ## Python `datetime` model -/

/-- Model of a Python `datetime` value: proleptic Gregorian civil fields,
microseconds, and whether the value is timezone-aware (the application only
ever attaches UTC, so awareness plus the civil fields determine the instant). -/
structure DT where
  year : Nat
  month : Nat
  day : Nat
  hour : Nat
  minute : Nat
  second : Nat
  micro : Nat
  aware : Bool
deriving DecidableEq

/-- Field bounds under which each component fits its zero-padded width. -/
def DT.InRange (t : DT) : Prop :=
  t.year < 10000 ∧ t.month < 100 ∧ t.day < 100 ∧ t.hour < 100 ∧
    t.minute < 100 ∧ t.second < 100 ∧ t.micro < 1000000

instance (t : DT) : Decidable t.InRange := by
  unfold DT.InRange
  infer_instance

/-- Seconds-level chronological key: civil fields packed positionally, so
comparing keys is comparing (year, month, day, hour, minute, second)
lexicographically — chronological order for civil UTC datetimes. -/
def DT.sKey (t : DT) : Nat :=
  ((((t.year * 100 + t.month) * 100 + t.day) * 100 + t.hour) * 100 +
    t.minute) * 100 + t.second

/-- Full chronological key including microseconds. -/
def DT.key (t : DT) : Nat := t.sKey * 1000000 + t.micro

/-! ## `datetime.isoformat` model -/

/-- `YYYY-MM-DDTHH:MM:SS` part of `isoformat`. -/
def fmtBase (t : DT) : List Char :=
  pad4 t.year ++ '-' :: (pad2 t.month ++ '-' :: (pad2 t.day ++
    'T' :: (pad2 t.hour ++ ':' :: (pad2 t.minute ++ ':' :: pad2 t.second))))

/-- `isoformat` prints a `.ffffff` fraction exactly when microseconds ≠ 0. -/
def fmtMicro (t : DT) : List Char :=
  if t.micro = 0 then [] else '.' :: pad6 t.micro

/-- `isoformat` prints the `+00:00` offset exactly for aware (UTC) values. -/
def fmtOffset (t : DT) : List Char :=
  if t.aware then ['+', '0', '0', ':', '0', '0'] else []

def fmtIsoL (t : DT) : List Char := fmtBase t ++ (fmtMicro t ++ fmtOffset t)

/-- Model of `datetime.isoformat()` for the values the application builds. -/
def fmtIso (t : DT) : String := ⟨fmtIsoL t⟩

theorem fmtBase_length (t : DT) : (fmtBase t).length = 19 := rfl

theorem lexLtB_cons_same {c : Char} {x y : List Char} :
    (lexLtB (c :: x) (c :: y) = true ↔ lexLtB x y = true) := by
  rw [lexLtB_cons_iff]
  constructor
  · rintro (h | ⟨-, h⟩)
    · exact absurd h (Nat.lt_irrefl _)
    · exact h
  · intro h
    exact Or.inr ⟨rfl, h⟩

theorem lexLtB_plus_dot (x y : List Char) :
    lexLtB ('+' :: x) ('.' :: y) = true := by
  have h : '+'.toNat < '.'.toNat := by decide
  simp [lexLtB, h]

theorem lexLtB_dot_plus (x y : List Char) :
    lexLtB ('.' :: x) ('+' :: y) = false := by
  have h : ¬ '.'.toNat < '+'.toNat := by decide
  have h2 : '+'.toNat < '.'.toNat := by decide
  simp [lexLtB, h, h2]

/-- The seconds-level ISO rendering is strictly monotone: byte order of the
rendered strings is chronological order of the fields. -/
theorem fmtBase_lt_iff {a b : DT} (ha : a.InRange) (hb : b.InRange) :
    (lexLtB (fmtBase a) (fmtBase b) = true ↔ a.sKey < b.sKey) := by
  obtain ⟨hy1, hmo1, hd1, hh1, hmi1, hs1, -⟩ := ha
  obtain ⟨hy2, hmo2, hd2, hh2, hmi2, hs2, -⟩ := hb
  unfold fmtBase
  rw [lexLtB_append_iff _ _ (by rfl), pad4_lt_iff hy1 hy2,
    pad4_eq_iff hy1 hy2, lexLtB_cons_same,
    lexLtB_append_iff _ _ (by rfl), pad2_lt_iff hmo1 hmo2,
    pad2_eq_iff hmo1 hmo2, lexLtB_cons_same,
    lexLtB_append_iff _ _ (by rfl), pad2_lt_iff hd1 hd2,
    pad2_eq_iff hd1 hd2, lexLtB_cons_same,
    lexLtB_append_iff _ _ (by rfl), pad2_lt_iff hh1 hh2,
    pad2_eq_iff hh1 hh2, lexLtB_cons_same,
    lexLtB_append_iff _ _ (by rfl), pad2_lt_iff hmi1 hmi2,
    pad2_eq_iff hmi1 hmi2, lexLtB_cons_same,
    pad2_lt_iff hs1 hs2]
  unfold DT.sKey
  omega

theorem lex_eq_iff_of_lt_iff {x y : List Char} {p q : Nat}
    (hpq : lexLtB x y = true ↔ p < q) (hqp : lexLtB y x = true ↔ q < p) :
    (x = y ↔ p = q) := by
  constructor
  · rintro rfl
    have h1 : ¬ p < q := fun h => by
      have h2 := hpq.mpr h
      rw [lexLtB_irrefl] at h2
      exact Bool.false_ne_true h2
    have h2 : ¬ q < p := fun h => by
      have h3 := hqp.mpr h
      rw [lexLtB_irrefl] at h3
      exact Bool.false_ne_true h3
    omega
  · intro he
    have h1 : lexLtB x y = false := by
      cases hx : lexLtB x y
      · rfl
      · exact absurd (hpq.mp hx) (by omega)
    have h2 : lexLtB y x = false := by
      cases hx : lexLtB y x
      · rfl
      · exact absurd (hqp.mp hx) (by omega)
    exact eq_of_not_lexLtB h1 h2

theorem fmtBase_eq_iff {a b : DT} (ha : a.InRange) (hb : b.InRange) :
    (fmtBase a = fmtBase b ↔ a.sKey = b.sKey) :=
  lex_eq_iff_of_lt_iff (fmtBase_lt_iff ha hb) (fmtBase_lt_iff hb ha)

/-- Full ISO rendering is strictly monotone on in-range values of equal
awareness: byte order of rendered timestamps is chronological order. -/
theorem fmtIsoL_lt_iff {a b : DT} (ha : a.InRange) (hb : b.InRange)
    (haw : a.aware = b.aware) :
    (lexLtB (fmtIsoL a) (fmtIsoL b) = true ↔ a.key < b.key) := by
  have hmu1 := ha.2.2.2.2.2.2
  have hmu2 := hb.2.2.2.2.2.2
  unfold fmtIsoL
  rw [lexLtB_append_iff _ _ (by rw [fmtBase_length, fmtBase_length]),
    fmtBase_lt_iff ha hb, fmtBase_eq_iff ha hb]
  have hoff : fmtOffset a = fmtOffset b := by
    unfold fmtOffset
    rw [haw]
  rw [hoff]
  unfold fmtMicro
  by_cases h1 : a.micro = 0 <;> by_cases h2 : b.micro = 0
  · rw [if_pos h1, if_pos h2]
    simp only [List.nil_append, lexLtB_irrefl, Bool.false_eq_true,
      and_false, or_false]
    unfold DT.key DT.sKey
    omega
  · rw [if_pos h1, if_neg h2]
    simp only [List.nil_append, List.cons_append]
    have htail : lexLtB (fmtOffset b)
        ('.' :: (pad6 b.micro ++ fmtOffset b)) = true := by
      unfold fmtOffset
      cases b.aware
      · simp [lexLtB]
      · exact lexLtB_plus_dot _ _
    simp only [htail, and_true]
    unfold DT.key DT.sKey
    omega
  · rw [if_neg h1, if_pos h2]
    simp only [List.nil_append, List.cons_append]
    have htail : lexLtB ('.' :: (pad6 a.micro ++ fmtOffset b))
        (fmtOffset b) = false := by
      unfold fmtOffset
      cases b.aware
      · simp [lexLtB_nil_right]
      · exact lexLtB_dot_plus _ _
    simp only [htail, Bool.false_eq_true, and_false, or_false]
    unfold DT.key DT.sKey
    omega
  · rw [if_neg h1, if_neg h2]
    simp only [List.cons_append]
    rw [lexLtB_cons_same, lexLtB_append_iff _ _ (by rfl),
      pad6_lt_iff hmu1 hmu2]
    simp only [lexLtB_irrefl, Bool.false_eq_true, and_false, or_false]
    unfold DT.key DT.sKey
    omega

theorem fmtIsoL_eq_iff {a b : DT} (ha : a.InRange) (hb : b.InRange)
    (haw : a.aware = b.aware) :
    (fmtIsoL a = fmtIsoL b ↔ a.key = b.key) :=
  lex_eq_iff_of_lt_iff (fmtIsoL_lt_iff ha hb haw) (fmtIsoL_lt_iff hb ha haw.symm)

/-! ## `datetime.fromisoformat` model -/

def isDigit (c : Char) : Bool := decide (48 ≤ c.toNat) && decide (c.toNat ≤ 57)

/-- Numeric value of a digit character. -/
def dVal (c : Char) : Nat := c.toNat - 48

def digits2 (a b : Char) : Option Nat :=
  if isDigit a && isDigit b then some (dVal a * 10 + dVal b) else none

def digits4 (a b c d : Char) : Option Nat :=
  if isDigit a && isDigit b && isDigit c && isDigit d then
    some (((dVal a * 10 + dVal b) * 10 + dVal c) * 10 + dVal d)
  else none

def isLeap (y : Nat) : Bool :=
  y % 4 == 0 && (y % 100 != 0 || y % 400 == 0)

def daysInMonth (y m : Nat) : Nat :=
  if m = 2 then (if isLeap y then 29 else 28)
  else if m = 4 || m = 6 || m = 9 || m = 11 then 30
  else 31

/-- End of a time part: nothing or the `+00:00` offset. -/
def finishTime (rest : List Char) (y m d h n sec u : Nat) : Option DT :=
  match rest with
  | [] => some ⟨y, m, d, h, n, sec, u, false⟩
  | ['+', '0', '0', ':', '0', '0'] => some ⟨y, m, d, h, n, sec, u, true⟩
  | _ => none

/-- Fractional seconds: exactly three (milliseconds) or six digits, as
`fromisoformat` accepts. -/
def parseFrac (l : List Char) (y m d h n sec : Nat) : Option DT :=
  match l.takeWhile isDigit with
  | [a, b, c] =>
    finishTime (l.dropWhile isDigit) y m d h n sec
      (((dVal a * 10 + dVal b) * 10 + dVal c) * 1000)
  | [a, b, c, e, f, g] =>
    finishTime (l.dropWhile isDigit) y m d h n sec
      (((((dVal a * 10 + dVal b) * 10 + dVal c) * 10 + dVal e) * 10 +
        dVal f) * 10 + dVal g)
  | _ => none

/-- After the date part, parse the optional time-of-day (`HH`, `HH:MM` or
`HH:MM:SS`), fractional-second and `+00:00` offset parts accepted by
`datetime.fromisoformat`, with the range checks `datetime` enforces. -/
def parseClock (rest : List Char) (y m d : Nat) : Option DT :=
  match rest with
  | [] => some ⟨y, m, d, 0, 0, 0, 0, false⟩
  | 'T' :: h1 :: h2 :: rest2 =>
    match digits2 h1 h2 with
    | some h =>
      if h ≤ 23 then
        match rest2 with
        | ':' :: n1 :: n2 :: rest3 =>
          match digits2 n1 n2 with
          | some n =>
            if n ≤ 59 then
              match rest3 with
              | ':' :: s1 :: s2 :: rest4 =>
                match digits2 s1 s2 with
                | some sec =>
                  if sec ≤ 59 then
                    match rest4 with
                    | '.' :: frs => parseFrac frs y m d h n sec
                    | _ => finishTime rest4 y m d h n sec 0
                  else none
                | none => none
              | _ => finishTime rest3 y m d h n 0 0
            else none
          | none => none
        | _ => finishTime rest2 y m d h 0 0 0
      else none
    | none => none
  | _ => none

def parseDate (y1 y2 y3 y4 m1 m2 d1 d2 : Char) (rest : List Char) :
    Option DT :=
  match digits4 y1 y2 y3 y4, digits2 m1 m2, digits2 d1 d2 with
  | some y, some m, some d =>
    if 1 ≤ y ∧ 1 ≤ m ∧ m ≤ 12 ∧ 1 ≤ d ∧ d ≤ daysInMonth y m then
      parseClock rest y m d
    else none
  | _, _, _ => none

/-- Model of `datetime.fromisoformat` on the grammar the application
reads and writes: `YYYY-MM-DD`, optionally followed by a `T`-separated
time (`HH`, `HH:MM` or `HH:MM:SS`, with a three- or six-digit fraction
after full seconds) and the UTC offset spelling `+00:00`, under
`datetime`'s range checks (year 1..9999, valid month/day, hour ≤ 23,
minute/second ≤ 59); returns `none` where Python raises
`ValueError`/`TypeError`. -/
def parse_iso (s : String) : Option DT :=
  match s.data with
  | y1 :: y2 :: y3 :: y4 :: '-' :: m1 :: m2 :: '-' :: d1 :: d2 :: rest =>
    parseDate y1 y2 y3 y4 m1 m2 d1 d2 rest
  | _ => none

/-! ## Civil-day arithmetic (`timedelta` addition, instant subtraction) -/

/-- Day number of a proleptic-Gregorian civil date, days since 1970-01-01
(the standard era-based conversion, as CPython's `datetime` ordinal
arithmetic computes it). -/
def days_from_civil (y m d : Nat) : Int :=
  let yi : Int := if m ≤ 2 then (y : Int) - 1 else (y : Int)
  let era : Int := Int.fdiv yi 400
  let yoe : Int := yi - era * 400
  let mp : Int := if 2 < m then (m : Int) - 3 else (m : Int) + 9
  let doy : Int := Int.fdiv (153 * mp + 2) 5 + (d : Int) - 1
  let doe : Int := yoe * 365 + Int.fdiv yoe 4 - Int.fdiv yoe 100 + doy
  era * 146097 + doe - 719468

/-- Inverse conversion: civil date of a day number. -/
def civil_from_days (z0 : Int) : Nat × Nat × Nat :=
  let z : Int := z0 + 719468
  let era : Int := Int.fdiv z 146097
  let doe : Int := z - era * 146097
  let yoe : Int :=
    Int.fdiv (doe - Int.fdiv doe 1460 + Int.fdiv doe 36524 -
      Int.fdiv doe 146096) 365
  let y : Int := yoe + era * 400
  let doy : Int := doe - (365 * yoe + Int.fdiv yoe 4 - Int.fdiv yoe 100)
  let mp : Int := Int.fdiv (5 * doy + 2) 153
  let d : Int := doy - Int.fdiv (153 * mp + 2) 5 + 1
  let m : Int := if mp < 10 then mp + 3 else mp - 9
  let y2 : Int := if m ≤ 2 then y + 1 else y
  (y2.toNat, m.toNat, d.toNat)

/-- Model of `dt + timedelta(days=k)`: shifts the civil date, keeping the
time-of-day and awareness; `none` is `datetime`'s uncaught `OverflowError`
when the shifted date leaves the supported range
0001-01-01 .. 9999-12-31. -/
def addDays (t : DT) (k : Int) : Option DT :=
  let z := days_from_civil t.year t.month t.day + k
  if z < days_from_civil 1 1 1 ∨ days_from_civil 9999 12 31 < z then none
  else
    let c := civil_from_days z
    some { t with year := c.1, month := c.2.1, day := c.2.2 }

/-- Microseconds since the epoch; differences of these model `datetime`
subtraction (`timedelta` values). -/
def DT.toMicros (t : DT) : Int :=
  (days_from_civil t.year t.month t.day * 86400 +
    (t.hour : Int) * 3600 + (t.minute : Int) * 60 + (t.second : Int)) *
    1000000 + (t.micro : Int)

def microsPerDay : Int := 86400000000

/-! ## `human_delta` (src/plant_mon.py lines 83-95) -/

/-- `days = diff.days; if abs(days) < 1 ... if days > 0 ...` — note
`abs(days) < 1` on an integer is exactly `days = 0`. -/
def humanDays (days : Int) : String :=
  if days = 0 then "today"
  else if 0 < days then "in " ++ toString days ++ "d"
  else toString (-days) ++ "d ago"

/-- Model of `human_delta(future_dt)` with the frozen current instant
`now` passed explicitly.  `none` (Python `None`) and mixed
aware/naive subtraction raise inside the `try`, giving `""`.
`timedelta.days` is floor division of the microsecond difference by one
day. -/
def human_delta (future : Option DT) (now : DT) : String :=
  match future with
  | none => ""
  | some t =>
    if t.aware = now.aware then
      humanDays (Int.fdiv (t.toMicros - now.toMicros) microsPerDay)
    else ""

/-! ## Storage model (tables `plants` and `water_logs`) -/

structure Plant where
  id : Nat
  name : String
  species : Option String
  location : Option String
  water_interval_days : Int
  notes : Option String
  created_at : String
  updated_at : String
deriving DecidableEq

structure WaterLog where
  id : Nat
  plant_id : Nat
  watered_at : String
  note : Option String
deriving DecidableEq

/-- The SQLite database: both tables plus the AUTOINCREMENT counters. -/
structure Store where
  plants : List Plant
  logs : List WaterLog
  next_plant_id : Nat
  next_log_id : Nat
deriving DecidableEq

def findPlant (s : Store) (pid : Nat) : Option Plant :=
  s.plants.find? (fun p => p.id == pid)

/-- Greatest string under byte order; models `ORDER BY <col> DESC LIMIT 1`. -/
def lexMax? : List String → Option String
  | [] => none
  | s :: ts =>
    match lexMax? ts with
    | none => some s
    | some m => some (if lexLtB m.data s.data then s else m)

def plantLogTimes (logs : List WaterLog) (pid : Nat) : List String :=
  (logs.filter (fun w => w.plant_id == pid)).map (fun w => w.watered_at)

/-- Model of `get_last_watered` (lines 98-103): the plant's `watered_at`
texts ordered descending (BINARY collation), limit 1. -/
def get_last_watered (logs : List WaterLog) (pid : Nat) : Option String :=
  lexMax? (plantLogTimes logs pid)

/-- `plant_row["water_interval_days"] or 7`: Python `or` replaces a falsy
(zero) interval by 7. -/
def orSeven (i : Int) : Int := if i = 0 then 7 else i

/-- Model of `compute_next_watering` (lines 106-119).  `if last_iso:` is
falsy both for no row and for an empty string, hence the inner test.
`Except.error ()` is the uncaught `OverflowError` from
`last + timedelta(days=interval)` past `datetime.max`, which aborts the
request. -/
def compute_next_watering (logs : List WaterLog) (p : Plant) :
    Except Unit (Option String) :=
  let last : Option DT :=
    match get_last_watered logs p.id with
    | some s => if s = "" then parse_iso p.created_at else parse_iso s
    | none => parse_iso p.created_at
  match last with
  | none => .ok none
  | some dt =>
    match addDays dt (orSeven p.water_interval_days) with
    | none => .error ()
    | some dt2 => .ok (some (fmtIso dt2))

/-- Python `str.strip()` (ASCII whitespace), structurally recursive so the
kernel can evaluate it. -/
def trimChars (l : List Char) : List Char :=
  ((l.dropWhile Char.isWhitespace).reverse.dropWhile Char.isWhitespace).reverse

def strTrim (s : String) : String := ⟨trimChars s.data⟩

/-! ## Request inputs and responses -/

/-- Form / JSON fields of a plant create or form-update request; `none` is
an absent field. -/
structure PlantInput where
  name : Option String
  species : Option String
  location : Option String
  water_interval_days : Option String
  notes : Option String

/-- JSON body of an API update; the outer `Option` distinguishes an absent
key (falls back to the stored row via `data.get(k, row[k])`) from an
explicit `null`. -/
structure PlantPatch where
  name : Option String
  species : Option (Option String)
  location : Option (Option String)
  water_interval_days : Option String
  notes : Option (Option String)

structure WaterInput where
  watered_at : Option String
  note : Option String

inductive PageResult
  | redirect
  | notFound
deriving DecidableEq

inductive ApiResult
  | okTrue
  | created (id : Nat)
  | err (status : Nat) (msg : String)
deriving DecidableEq

/-- Model of Python `int(str)` on the strings the handlers meet. -/
def int_of_string (s : String) : Option Int :=
  match s.data with
  | [] => none
  | '-' :: ds =>
    if ds ≠ [] ∧ ds.all isDigit then
      some (-(ds.foldl (fun a c => a * 10 + dVal c) 0 : Nat))
    else none
  | ds =>
    if ds.all isDigit then
      some ((ds.foldl (fun a c => a * 10 + dVal c) 0 : Nat))
    else none

/-- `try: interval = max(1, int(v or 7)) except: interval = 7` -/
def parse_interval_or7 (v : Option String) : Int :=
  match v with
  | none => 7
  | some s =>
    if s = "" then 7
    else
      match int_of_string s with
      | some n => max 1 n
      | none => 7

/-- `try: interval = max(1, int(v or row_val)) except: interval = row_val` -/
def patch_interval (v : Option String) (prior : Int) : Int :=
  match v with
  | none => max 1 prior
  | some s =>
    if s = "" then max 1 prior
    else
      match int_of_string s with
      | some n => max 1 n
      | none => prior

/-! ## Plant CRUD handlers -/

/-- `create_plant` form handler (lines 457-478). -/
def create_plant (s : Store) (nowStr : String) (inp : PlantInput) :
    Store × PageResult :=
  let name := strTrim (inp.name.getD "")
  if name = "" then (s, .redirect)
  else
    let species := strTrim (inp.species.getD "")
    let location := strTrim (inp.location.getD "")
    let interval := parse_interval_or7 inp.water_interval_days
    let notes := inp.notes.getD ""
    let p : Plant := ⟨s.next_plant_id, name, some species, some location,
      interval, some notes, nowStr, nowStr⟩
    ({ s with
        plants := s.plants ++ [p],
        next_plant_id := s.next_plant_id + 1 }, .redirect)

/-- `api_plants` POST branch (lines 642-660). -/
def api_create_plant (s : Store) (nowStr : String) (inp : PlantInput) :
    Store × ApiResult :=
  let name := strTrim (inp.name.getD "")
  if name = "" then (s, .err 400 "name required")
  else
    let interval := parse_interval_or7 inp.water_interval_days
    let notes := inp.notes.getD ""
    let p : Plant := ⟨s.next_plant_id, name, inp.species, inp.location,
      interval, some notes, nowStr, nowStr⟩
    ({ s with
        plants := s.plants ++ [p],
        next_plant_id := s.next_plant_id + 1 }, .created s.next_plant_id)

/-- `update_plant` form handler (lines 540-562): stores the trimmed
submitted fields unconditionally. -/
def update_plant (s : Store) (nowStr : String) (pid : Nat) (inp : PlantInput) :
    Store × PageResult :=
  match findPlant s pid with
  | none => (s, .notFound)
  | some _ =>
    let name := strTrim (inp.name.getD "")
    let species := strTrim (inp.species.getD "")
    let location := strTrim (inp.location.getD "")
    let interval := parse_interval_or7 inp.water_interval_days
    let notes := inp.notes.getD ""
    ({ s with
        plants := s.plants.map (fun p =>
          if p.id == pid then
            { p with
                name := name,
                species := some species,
                location := some location,
                water_interval_days := interval,
                notes := some notes,
                updated_at := nowStr }
          else p) }, .redirect)

/-- `api_plant` PUT branch (lines 680-694): `(data.get("name") or
row["name"]).strip()`, other fields via `data.get(k, row[k])`. -/
def api_update_plant (s : Store) (nowStr : String) (pid : Nat)
    (inp : PlantPatch) : Store × ApiResult :=
  match findPlant s pid with
  | none => (s, .err 404 "not found")
  | some row =>
    let rawName :=
      match inp.name with
      | none => row.name
      | some v => if v = "" then row.name else v
    let name := strTrim rawName
    let species := inp.species.getD row.species
    let location := inp.location.getD row.location
    let interval := patch_interval inp.water_interval_days
      row.water_interval_days
    let notes := inp.notes.getD row.notes
    ({ s with
        plants := s.plants.map (fun p =>
          if p.id == pid then
            { p with
                name := name,
                species := species,
                location := location,
                water_interval_days := interval,
                notes := notes,
                updated_at := nowStr }
          else p) }, .okTrue)

/-- `delete_plant` form handler (lines 565-572): no existence check. -/
def delete_plant (s : Store) (pid : Nat) : Store × PageResult :=
  ({ s with
      plants := s.plants.filter (fun p => p.id != pid),
      logs := s.logs.filter (fun w => w.plant_id != pid) }, .redirect)

/-- `api_plant` DELETE branch (lines 663-679): 404 when the row is absent. -/
def api_delete_plant (s : Store) (pid : Nat) : Store × ApiResult :=
  match findPlant s pid with
  | none => (s, .err 404 "not found")
  | some _ =>
    ({ s with
        plants := s.plants.filter (fun p => p.id != pid),
        logs := s.logs.filter (fun w => w.plant_id != pid) }, .okTrue)

/-! ## Watering event handlers -/

/-- Shared body of `log_water` (lines 575-590) and `api_log_water`
(lines 697-714): `watered_at = supplied or now_iso()`; the subsequent
`try: _ = parse_iso(watered_at) except: watered_at = now_iso()` never
fires because `parse_iso` returns `None` instead of raising, so a
non-empty unparsable string is stored verbatim. -/
def log_water_row (s : Store) (nowStr : String) (pid : Nat)
    (inp : WaterInput) : Store :=
  let watered_at :=
    match inp.watered_at with
    | none => nowStr
    | some v => if v = "" then nowStr else v
  let note := inp.note.getD ""
  { s with
      logs := s.logs ++ [⟨s.next_log_id, pid, watered_at, some note⟩],
      next_log_id := s.next_log_id + 1 }

def log_water (s : Store) (nowStr : String) (pid : Nat) (inp : WaterInput) :
    Store × PageResult :=
  match findPlant s pid with
  | none => (s, .notFound)
  | some _ => (log_water_row s nowStr pid inp, .redirect)

def api_log_water (s : Store) (nowStr : String) (pid : Nat)
    (inp : WaterInput) : Store × ApiResult :=
  match findPlant s pid with
  | none => (s, .err 404 "not found")
  | some _ => (log_water_row s nowStr pid inp, .okTrue)

def lowerAscii (c : Char) : Char :=
  if 65 ≤ c.toNat ∧ c.toNat ≤ 90 then Char.ofNat (c.toNat + 32) else c

def foldNocase (s : String) : List Char := s.data.map lowerAscii

/-- SQLite NOCASE collation: BINARY after ASCII case folding. -/
def nocaseLe (a b : String) : Prop := lexLtB (foldNocase b) (foldNocase a) = false

/-- SQLite default BINARY collation, as ≤ on the column texts. -/
def binaryLe (a b : String) : Prop := lexLtB b.data a.data = false

instance : DecidableRel nocaseLe := fun _ _ =>
  inferInstanceAs (Decidable (_ = false))

instance : DecidableRel binaryLe := fun _ _ =>
  inferInstanceAs (Decidable (_ = false))

def plantNocaseLe (a b : Plant) : Prop := nocaseLe a.name b.name

def plantBinaryLe (a b : Plant) : Prop := binaryLe a.name b.name

instance : DecidableRel plantNocaseLe := fun _ _ =>
  inferInstanceAs (Decidable (_ = false))

instance : DecidableRel plantBinaryLe := fun _ _ =>
  inferInstanceAs (Decidable (_ = false))

theorem lexLeB_total (x y : List Char) :
    lexLtB y x = false ∨ lexLtB x y = false := by
  cases h : lexLtB y x
  · exact Or.inl rfl
  · exact Or.inr (lexLtB_asymm h)

theorem lexLeB_trans {x y z : List Char} (h1 : lexLtB y x = false)
    (h2 : lexLtB z y = false) : lexLtB z x = false := by
  by_contra hc
  have hzx : lexLtB z x = true := by
    cases hv : lexLtB z x
    · exact absurd hv hc
    · rfl
  rcases lexLtB_trichotomy x y with h | rfl | h
  · have h3 := lexLtB_trans hzx h
    rw [h3] at h2
    exact absurd h2 (by simp)
  · rw [hzx] at h2
    exact absurd h2 (by simp)
  · rw [h] at h1
    exact absurd h1 (by simp)

instance : IsTotal Plant plantNocaseLe :=
  ⟨fun a b => lexLeB_total (foldNocase a.name) (foldNocase b.name)⟩

instance : IsTrans Plant plantNocaseLe :=
  ⟨fun _ _ _ hab hbc => lexLeB_trans hab hbc⟩

instance : IsTotal Plant plantBinaryLe :=
  ⟨fun a b => lexLeB_total a.name.data b.name.data⟩

instance : IsTrans Plant plantBinaryLe :=
  ⟨fun _ _ _ hab hbc => lexLeB_trans hab hbc⟩

deriving instance DecidableEq for Except

structure DecoratedPlant where
  plant : Plant
  last_watered : Option String
  next_watering : Except Unit (Option String)
deriving DecidableEq

def decorate (logs : List WaterLog) (p : Plant) : DecoratedPlant :=
  ⟨p, get_last_watered logs p.id, compute_next_watering logs p⟩

/-- Dashboard plant list (`index`, lines 374-399): `SELECT * FROM plants
ORDER BY name COLLATE NOCASE`, each row decorated with the computed
last-watered and next-watering fields (the handler then derives display
strings and the human delta from them and applies the dashboard filters). -/
def index_plants (s : Store) : List DecoratedPlant :=
  (List.insertionSort plantNocaseLe s.plants).map (decorate s.logs)

/-- API list (`api_plants` GET, lines 633-641): `ORDER BY name` (BINARY),
same decoration. -/
def api_plants_get (s : Store) : List DecoratedPlant :=
  (List.insertionSort plantBinaryLe s.plants).map (decorate s.logs)

/-! ## Properties of the descending-order lookup -/

theorem lexMax?_eq_none_iff {ts : List String} :
    lexMax? ts = none ↔ ts = [] := by
  cases ts with
  | nil => simp [lexMax?]
  | cons s ts =>
    simp only [lexMax?]
    cases lexMax? ts <;> simp

theorem lexMax?_mem_ub : ∀ {ts : List String} {m : String},
    lexMax? ts = some m →
    m ∈ ts ∧ ∀ x ∈ ts, lexLtB m.data x.data = false
  | [], m, h => by simp [lexMax?] at h
  | s :: ts, m, h => by
    rw [lexMax?] at h
    cases hts : lexMax? ts with
    | none =>
      rw [hts] at h
      have hsm : s = m := by simpa using h
      subst hsm
      have hnil : ts = [] := lexMax?_eq_none_iff.mp hts
      subst hnil
      exact ⟨by simp, by simp [lexLtB_irrefl]⟩
    | some m0 =>
      rw [hts] at h
      obtain ⟨hmem0, hub0⟩ := lexMax?_mem_ub hts
      cases hlt : lexLtB m0.data s.data with
      | true =>
        have hsm : s = m := by simpa [hlt] using h
        subst hsm
        refine ⟨by simp, ?_⟩
        intro x hx
        rcases List.mem_cons.mp hx with rfl | hx2
        · exact lexLtB_irrefl _
        · cases hv : lexLtB s.data x.data with
          | false => rfl
          | true =>
            have h2 := lexLtB_trans hlt hv
            rw [hub0 x hx2] at h2
            exact absurd h2 (by simp)
      | false =>
        have hm0m : m0 = m := by simpa [hlt] using h
        subst hm0m
        refine ⟨List.mem_cons_of_mem _ hmem0, ?_⟩
        intro x hx
        rcases List.mem_cons.mp hx with rfl | hx2
        · exact hlt
        · exact hub0 x hx2

def fernCreated : String := "2025-01-01T00:00:00+00:00"

def fernPlant : Plant := ⟨1, "Fern", none, none, 3, none, fernCreated, fernCreated⟩

def storeFern : Store := ⟨[fernPlant], [], 2, 1⟩

def nowDemo : String := "2025-01-02T03:04:05+00:00"

/-- `storeFern` plus one watering event for the fern and one orphan-free
event for a second plant. -/
def ivyPlant : Plant := ⟨2, "Ivy", none, none, 7, none, fernCreated, fernCreated⟩

def storeTwo : Store :=
  ⟨[fernPlant, ivyPlant],
    [⟨1, 1, "2025-01-03T00:00:00+00:00", some ""⟩,
     ⟨2, 2, "2025-01-04T00:00:00+00:00", some ""⟩,
     ⟨3, 1, "2025-01-05T00:00:00+00:00", some "backdated"⟩], 3, 4⟩

/-! ## C3 — malformed timestamps on log-water -/

/-- C3 (code bug): on both log-water handlers a non-empty unparsable
`watered_at` is stored verbatim (the `try/except` fallback to `now_iso()`
is dead because `parse_iso` returns `None` instead of raising), while an
absent value does default to the current instant. -/
theorem log_water_keeps_malformed_timestamp :
    (log_water storeFern nowDemo 1 ⟨some "not-a-date", none⟩).1.logs =
      [⟨1, 1, "not-a-date", some ""⟩] ∧
    (api_log_water storeFern nowDemo 1 ⟨some "not-a-date", none⟩).1.logs =
      [⟨1, 1, "not-a-date", some ""⟩] ∧
    parse_iso "not-a-date" = none ∧
    (log_water storeFern nowDemo 1 ⟨none, none⟩).1.logs =
      [⟨1, 1, nowDemo, some ""⟩] := by
  refine ⟨rfl, rfl, by decide, rfl⟩

/-! ## C4 — the name-nonempty invariant -/

def emptyNameInput : PlantInput := ⟨some "", some "", some "", some "7", some ""⟩

/-- C4 counterexample: a page-form update with an empty submitted name
stores an empty name, so "every update leaves the name non-empty" fails. -/
theorem update_plant_stores_empty_name :
    fernPlant.name = "Fern" ∧
    ((update_plant storeFern nowDemo 1 emptyNameInput).1.plants.map
      (fun p => p.name)) = [""] := by
  refine ⟨rfl, rfl⟩

/-- C4 (amended): creation (form and API) rejects an empty trimmed name;
the API update falls back to the prior stored name when the supplied name
is absent or empty; but the page-form update stores the trimmed submitted
name unconditionally (possibly empty), and an API update with a
whitespace-only name stores its empty trim. -/
theorem name_policy (s : Store) (nowStr : String) :
    (∀ inp : PlantInput, ∀ q ∈ (create_plant s nowStr inp).1.plants,
      q ∈ s.plants ∨ q.name ≠ "") ∧
    (∀ inp : PlantInput, ∀ q ∈ (api_create_plant s nowStr inp).1.plants,
      q ∈ s.plants ∨ q.name ≠ "") ∧
    (∀ pid : Nat, ∀ inp : PlantPatch,
      (inp.name = none ∨ inp.name = some "") →
      (∀ q ∈ s.plants, strTrim q.name = q.name ∧ q.name ≠ "") →
      ∀ q ∈ (api_update_plant s nowStr pid inp).1.plants, q.name ≠ "") ∧
    (∀ pid : Nat, ∀ inp : PlantInput,
      ∀ q ∈ (update_plant s nowStr pid inp).1.plants,
      q.id = pid → q.name = strTrim (inp.name.getD "")) ∧
    (∀ pid : Nat, ∀ inp : PlantPatch, ∀ v : String, inp.name = some v →
      v ≠ "" → ∀ q ∈ (api_update_plant s nowStr pid inp).1.plants,
      q.id = pid → q.name = strTrim v) := by
  refine ⟨?_, ?_, ?_, ?_, ?_⟩
  · intro inp q hq
    simp only [create_plant] at hq
    by_cases h : strTrim (inp.name.getD "") = ""
    · rw [if_pos h] at hq
      exact Or.inl hq
    · rw [if_neg h] at hq
      simp only [List.mem_append, List.mem_singleton] at hq
      rcases hq with hq | rfl
      · exact Or.inl hq
      · exact Or.inr h
  · intro inp q hq
    simp only [api_create_plant] at hq
    by_cases h : strTrim (inp.name.getD "") = ""
    · rw [if_pos h] at hq
      exact Or.inl hq
    · rw [if_neg h] at hq
      simp only [List.mem_append, List.mem_singleton] at hq
      rcases hq with hq | rfl
      · exact Or.inl hq
      · exact Or.inr h
  · intro pid inp hname hstored q hq
    simp only [api_update_plant] at hq
    cases hfp : findPlant s pid with
    | none =>
      rw [hfp] at hq
      exact (hstored q hq).2
    | some row =>
      rw [hfp] at hq
      have hrow : row ∈ s.plants := by
        unfold findPlant at hfp
        exact List.mem_of_find?_eq_some hfp
      simp only [List.mem_map] at hq
      obtain ⟨p0, hp0, rfl⟩ := hq
      by_cases hid : (p0.id == pid) = true
      · rw [if_pos hid]
        have hraw : (match inp.name with
            | none => row.name
            | some v => if v = "" then row.name else v) = row.name := by
          rcases hname with h | h <;> rw [h]
          simp
        simp only [hraw]
        rw [(hstored row hrow).1]
        exact (hstored row hrow).2
      · rw [if_neg hid]
        exact (hstored p0 hp0).2
  · intro pid inp q hq hqid
    simp only [update_plant] at hq
    cases hfp : findPlant s pid with
    | none =>
      rw [hfp] at hq
      unfold findPlant at hfp
      have h2 := List.find?_eq_none.mp hfp q hq
      simp only [beq_iff_eq] at h2
      exact absurd hqid h2
    | some row =>
      rw [hfp] at hq
      simp only [List.mem_map] at hq
      obtain ⟨p0, hp0, rfl⟩ := hq
      by_cases hid : (p0.id == pid) = true
      · rw [if_pos hid]
      · rw [if_neg hid] at hqid ⊢
        simp only [beq_iff_eq] at hid
        exact absurd hqid hid
  · intro pid inp v hv hvne q hq hqid
    simp only [api_update_plant] at hq
    cases hfp : findPlant s pid with
    | none =>
      rw [hfp] at hq
      unfold findPlant at hfp
      have h2 := List.find?_eq_none.mp hfp q hq
      simp only [beq_iff_eq] at h2
      exact absurd hqid h2
    | some row =>
      rw [hfp] at hq
      simp only [List.mem_map] at hq
      obtain ⟨p0, hp0, rfl⟩ := hq
      by_cases hid : (p0.id == pid) = true
      · rw [if_pos hid]
        simp only [hv]
        rw [if_neg hvne]
      · rw [if_neg hid] at hqid ⊢
        simp only [beq_iff_eq] at hid
        exact absurd hqid hid

/-- C4 witness for the amended policy. -/
theorem name_policy_witness :
    (∀ q ∈ (api_update_plant storeFern nowDemo 1
      ⟨none, none, none, none, none⟩).1.plants, q.name ≠ "") ∧
    (∀ q ∈ (update_plant storeFern nowDemo 1 emptyNameInput).1.plants,
      q.id = 1 → q.name = strTrim ((some "" : Option String).getD "")) :=
  ⟨(name_policy storeFern nowDemo).2.2.1 1 ⟨none, none, none, none, none⟩
      (Or.inl rfl) (by decide),
    fun q hq => (name_policy storeFern nowDemo).2.2.2.1 1 emptyNameInput q hq⟩

/-! ## C5 — delete removes exactly that plant's events -/

/-- C5: after either delete handler, no events reference the deleted
plant's identifier and other plants' events are unchanged. -/
theorem delete_plant_removes_events (s : Store) (pid : Nat) (p : Plant)
    (hp : findPlant s pid = some p) :
    ((delete_plant s pid).1.logs.filter (fun w => w.plant_id == pid) = [] ∧
      ∀ w : WaterLog, w.plant_id ≠ pid →
        (w ∈ (delete_plant s pid).1.logs ↔ w ∈ s.logs)) ∧
    ((api_delete_plant s pid).1.logs.filter (fun w => w.plant_id == pid) = [] ∧
      ∀ w : WaterLog, w.plant_id ≠ pid →
        (w ∈ (api_delete_plant s pid).1.logs ↔ w ∈ s.logs)) := by
  have hfilter : (s.logs.filter (fun w => w.plant_id != pid)).filter
      (fun w => w.plant_id == pid) = [] := by
    rw [List.filter_eq_nil_iff]
    intro w hw
    have h2 := (List.mem_filter.mp hw).2
    simp only [bne_iff_ne, ne_eq] at h2
    simp [h2]
  have hmem : ∀ w : WaterLog, w.plant_id ≠ pid →
      (w ∈ s.logs.filter (fun w2 => w2.plant_id != pid) ↔ w ∈ s.logs) := by
    intro w hw
    simp [List.mem_filter, hw]
  refine ⟨⟨hfilter, hmem⟩, ?_⟩
  simp only [api_delete_plant, hp]
  exact ⟨hfilter, hmem⟩

/-- C5 witness at a concrete two-plant store. -/
theorem delete_plant_removes_events_witness :
    (delete_plant storeTwo 1).1.logs.filter (fun w => w.plant_id == 1) = [] ∧
    ((⟨2, 2, "2025-01-04T00:00:00+00:00", some ""⟩ : WaterLog) ∈
      (delete_plant storeTwo 1).1.logs ↔
      (⟨2, 2, "2025-01-04T00:00:00+00:00", some ""⟩ : WaterLog) ∈
        storeTwo.logs) :=
  ⟨(delete_plant_removes_events storeTwo 1 fernPlant rfl).1.1,
    (delete_plant_removes_events storeTwo 1 fernPlant rfl).1.2 _ (by decide)⟩

/-! ## C7 — create with empty trimmed name -/

/-- C7: an empty-after-trim name makes the form handler a silent no-op
redirect and the API handler a 400 "name required" error, inserting
nothing in either case. -/
theorem create_plant_empty_name (s : Store) (nowStr : String)
    (inp inp2 : PlantInput)
    (h : strTrim (inp.name.getD "") = "") (h2 : strTrim (inp2.name.getD "") = "") :
    create_plant s nowStr inp = (s, .redirect) ∧
    api_create_plant s nowStr inp2 = (s, .err 400 "name required") := by
  constructor
  · simp only [create_plant]
    rw [if_pos h]
  · simp only [api_create_plant]
    rw [if_pos h2]

/-- C7 witness: whitespace-only and absent names. -/
theorem create_plant_empty_name_witness :
    create_plant storeFern nowDemo ⟨some "   ", none, none, none, none⟩ =
      (storeFern, .redirect) ∧
    api_create_plant storeFern nowDemo ⟨none, none, none, none, none⟩ =
      (storeFern, .err 400 "name required") :=
  create_plant_empty_name storeFern nowDemo _ _ (by decide) (by decide)

/-! ## C8 — delete of a nonexistent identifier -/

/-- C8: the page delete handler succeeds (and changes nothing) on a
nonexistent identifier while the API delete handler answers NotFound; on
an existing plant both succeed with the same resulting store. -/
theorem delete_nonexistent_page_vs_api (s : Store) (pid : Nat)
    (hwf : ∀ w ∈ s.logs, ∃ q ∈ s.plants, q.id = w.plant_id) :
    (findPlant s pid = none →
      delete_plant s pid = (s, .redirect) ∧
      api_delete_plant s pid = (s, .err 404 "not found")) ∧
    (∀ p, findPlant s pid = some p →
      (delete_plant s pid).2 = .redirect ∧
      api_delete_plant s pid = ((delete_plant s pid).1, .okTrue)) := by
  constructor
  · intro hnone
    have hnone2 := hnone
    unfold findPlant at hnone2
    have hplants : s.plants.filter (fun p => p.id != pid) = s.plants := by
      rw [List.filter_eq_self]
      intro p hp
      have h2 := List.find?_eq_none.mp hnone2 p hp
      simpa using h2
    have hlogs : s.logs.filter (fun w => w.plant_id != pid) = s.logs := by
      rw [List.filter_eq_self]
      intro w hw
      obtain ⟨q, hq, hqid⟩ := hwf w hw
      have h2 := List.find?_eq_none.mp hnone2 q hq
      simp only [beq_iff_eq] at h2
      simp only [bne_iff_ne, ne_eq]
      rw [← hqid]
      exact h2
    constructor
    · unfold delete_plant
      rw [hplants, hlogs]
    · simp only [api_delete_plant, hnone]
  · intro p hp
    refine ⟨rfl, ?_⟩
    simp only [api_delete_plant, delete_plant, hp]

/-! ## C6 — backdated logging -/

theorem fdiv_day_eq_iff (a N : Int) :
    Int.fdiv a microsPerDay = N ↔
      N * microsPerDay ≤ a ∧ a < (N + 1) * microsPerDay := by
  unfold microsPerDay
  rw [Int.fdiv_eq_ediv _ (by omega)]
  omega

theorem string_append_data (a b : String) : (a ++ b).data = a.data ++ b.data :=
  rfl

theorem ne_today_in (a : String) : "in " ++ a ++ "d" ≠ "today" := by
  intro h
  have hd : 'i' :: 'n' :: ' ' :: (a.data ++ ['d']) = ['t', 'o', 'd', 'a', 'y'] :=
    congrArg String.data h
  injection hd with h1 _
  exact absurd h1 (by decide)

theorem ne_today_ago (a : String) : a ++ "d ago" ≠ "today" := by
  intro h
  have hd : a.data ++ ['d', ' ', 'a', 'g', 'o'] = ['t', 'o', 'd', 'a', 'y'] :=
    congrArg String.data h
  have hlen := congrArg List.length hd
  simp only [List.length_append, List.length_cons, List.length_nil] at hlen
  have hnil : a.data = [] := List.eq_nil_of_length_eq_zero (by omega)
  rw [hnil] at hd
  exact absurd hd (by decide)

/-- C2 counterexample: a target one hour before the frozen now has
|difference| far below one day yet renders "1d ago", not "today". -/
theorem human_delta_hour_ago_not_today :
    human_delta (some ⟨2025, 1, 2, 11, 0, 0, 0, true⟩)
      ⟨2025, 1, 2, 12, 0, 0, 0, true⟩ = "1d ago" ∧
    (⟨2025, 1, 2, 11, 0, 0, 0, true⟩ : DT).toMicros -
      (⟨2025, 1, 2, 12, 0, 0, 0, true⟩ : DT).toMicros = -3600000000 ∧
    -microsPerDay < -3600000000 ∧ (-3600000000 : Int) < microsPerDay :=
  ⟨by decide, by decide, by decide, by decide⟩

/-- C2 (amended): the label is determined by the signed floor
N = ⌊Δ/day⌋ of the microsecond difference Δ = target - now: "today"
exactly when 0 ≤ Δ < 1 day (N = 0); "in Nd" when N ≥ 1; "Nd ago" when
⌊Δ/day⌋ = -N ≤ -1, so a target even slightly in the past reads "1d ago";
an absent target renders the empty string. -/
theorem human_delta_floor_days (t now : DT) (haw : t.aware = now.aware) :
    (human_delta (some t) now = "today" ↔
      0 ≤ t.toMicros - now.toMicros ∧
        t.toMicros - now.toMicros < microsPerDay) ∧
    (∀ N : Int, 1 ≤ N → N * microsPerDay ≤ t.toMicros - now.toMicros →
      t.toMicros - now.toMicros < (N + 1) * microsPerDay →
      human_delta (some t) now = "in " ++ toString N ++ "d") ∧
    (∀ N : Int, 1 ≤ N → -N * microsPerDay ≤ t.toMicros - now.toMicros →
      t.toMicros - now.toMicros < (-N + 1) * microsPerDay →
      human_delta (some t) now = toString N ++ "d ago") ∧
    human_delta none now = "" := by
  have hdef : human_delta (some t) now =
      humanDays (Int.fdiv (t.toMicros - now.toMicros) microsPerDay) := by
    show (if t.aware = now.aware then
      humanDays (Int.fdiv (t.toMicros - now.toMicros) microsPerDay)
      else "") = _
    rw [if_pos haw]
  refine ⟨?_, ?_, ?_, rfl⟩
  · rw [hdef]
    constructor
    · intro h
      unfold humanDays at h
      by_cases h0 : Int.fdiv (t.toMicros - now.toMicros) microsPerDay = 0
      · have := (fdiv_day_eq_iff _ _).mp h0
        constructor <;> omega
      · rw [if_neg h0] at h
        by_cases hpos : 0 < Int.fdiv (t.toMicros - now.toMicros) microsPerDay
        · rw [if_pos hpos] at h
          exact absurd h (ne_today_in _)
        · rw [if_neg hpos] at h
          exact absurd h (ne_today_ago _)
    · intro h
      have h0 : Int.fdiv (t.toMicros - now.toMicros) microsPerDay = 0 :=
        (fdiv_day_eq_iff _ _).mpr (by constructor <;> omega)
      rw [h0]
      rfl
  · intro N hN h1 h2
    have h0 : Int.fdiv (t.toMicros - now.toMicros) microsPerDay = N :=
      (fdiv_day_eq_iff _ _).mpr ⟨h1, h2⟩
    rw [hdef, h0]
    unfold humanDays
    rw [if_neg (by omega), if_pos (by omega)]
  · intro N hN h1 h2
    have h0 : Int.fdiv (t.toMicros - now.toMicros) microsPerDay = -N := by
      refine (fdiv_day_eq_iff _ _).mpr ⟨?_, ?_⟩
      · exact le_of_eq_of_le (by ring) h1
      · exact lt_of_lt_of_eq h2 (by ring)
    rw [hdef, h0]
    unfold humanDays
    rw [if_neg (by omega), if_neg (by omega), neg_neg]

/-- C2 witness: a target three days and an hour ahead renders "in 3d". -/
theorem human_delta_floor_days_witness :
    human_delta (some ⟨2025, 1, 5, 13, 0, 0, 0, true⟩)
      ⟨2025, 1, 2, 12, 0, 0, 0, true⟩ = "in " ++ toString (3 : Int) ++ "d" :=
  (human_delta_floor_days ⟨2025, 1, 5, 13, 0, 0, 0, true⟩
    ⟨2025, 1, 2, 12, 0, 0, 0, true⟩ rfl).2.1 3 (by omega) (by decide)
    (by decide)

/-- C8 witness: nonexistent id 99 and existing id 1 on the two-plant store. -/
theorem delete_nonexistent_page_vs_api_witness :
    (delete_plant storeTwo 99 = (storeTwo, .redirect) ∧
      api_delete_plant storeTwo 99 = (storeTwo, .err 404 "not found")) ∧
    api_delete_plant storeTwo 1 = ((delete_plant storeTwo 1).1, .okTrue) :=
  ⟨(delete_nonexistent_page_vs_api storeTwo 99 (by decide)).1 rfl,
    ((delete_nonexistent_page_vs_api storeTwo 1 (by decide)).2
      fernPlant rfl).2⟩

/-! ## C9 — listing order and decoration -/

def applePlant : Plant := ⟨1, "apple", none, none, 7, none, fernCreated, fernCreated⟩

def bananaPlant : Plant := ⟨2, "Banana", none, none, 7, none, fernCreated, fernCreated⟩

def storeAB : Store := ⟨[applePlant, bananaPlant], [], 3, 1⟩

/-- C9 counterexample: with plants "apple" and "Banana", the API list comes
back in case-sensitive BINARY order ("Banana" first), while the dashboard
list is in the case-insensitive order; so the claimed case-insensitive
ordering does not hold for the API surface. -/
theorem api_list_not_nocase_sorted :
    (api_plants_get storeAB).map (fun d => d.plant.name) =
      ["Banana", "apple"] ∧
    (index_plants storeAB).map (fun d => d.plant.name) =
      ["apple", "Banana"] ∧
    ¬ List.Pairwise nocaseLe
      ((api_plants_get storeAB).map (fun d => d.plant.name)) := by
  have hnames : (api_plants_get storeAB).map (fun d => d.plant.name) =
      ["Banana", "apple"] := by decide
  refine ⟨hnames, by decide, ?_⟩
  intro h
  rw [hnames] at h
  have h2 := (List.pairwise_cons.mp h).1 "apple" (by simp)
  exact absurd h2 (by decide)

/-- C9 (amended): both surfaces return all plants decorated with the
computed last-watered and next-watering fields; the dashboard list is
ordered by name case-insensitively (NOCASE), while the API list is ordered
by name under the case-sensitive BINARY collation. -/
theorem listing_sorted_decorated (s : Store) :
    ((index_plants s).map (fun d => d.plant)).Perm s.plants ∧
    List.Pairwise (fun d e : DecoratedPlant => plantNocaseLe d.plant e.plant)
      (index_plants s) ∧
    (∀ d ∈ index_plants s,
      d.last_watered = get_last_watered s.logs d.plant.id ∧
      d.next_watering = compute_next_watering s.logs d.plant) ∧
    ((api_plants_get s).map (fun d => d.plant)).Perm s.plants ∧
    List.Pairwise (fun d e : DecoratedPlant => plantBinaryLe d.plant e.plant)
      (api_plants_get s) ∧
    (∀ d ∈ api_plants_get s,
      d.last_watered = get_last_watered s.logs d.plant.id ∧
      d.next_watering = compute_next_watering s.logs d.plant) := by
  have hcomp : ∀ logs : List WaterLog,
      ((fun d : DecoratedPlant => d.plant) ∘ decorate logs) = id := fun _ => rfl
  refine ⟨?_, ?_, ?_, ?_, ?_, ?_⟩
  · unfold index_plants
    rw [List.map_map, hcomp, List.map_id]
    exact List.perm_insertionSort _ _
  · unfold index_plants
    rw [List.pairwise_map]
    exact List.sorted_insertionSort plantNocaseLe s.plants
  · intro d hd
    unfold index_plants at hd
    rw [List.mem_map] at hd
    obtain ⟨p, hp, rfl⟩ := hd
    exact ⟨rfl, rfl⟩
  · unfold api_plants_get
    rw [List.map_map, hcomp, List.map_id]
    exact List.perm_insertionSort _ _
  · unfold api_plants_get
    rw [List.pairwise_map]
    exact List.sorted_insertionSort plantBinaryLe s.plants
  · intro d hd
    unfold api_plants_get at hd
    rw [List.mem_map] at hd
    obtain ⟨p, hp, rfl⟩ := hd
    exact ⟨rfl, rfl⟩

/-- C9 witness: the decoration clause instantiated at a concrete entry. -/
theorem listing_sorted_decorated_witness :
    (decorate storeAB.logs applePlant).last_watered =
      get_last_watered storeAB.logs
        (decorate storeAB.logs applePlant).plant.id ∧
    (decorate storeAB.logs applePlant).next_watering =
      compute_next_watering storeAB.logs
        (decorate storeAB.logs applePlant).plant :=
  (listing_sorted_decorated storeAB).2.2.1 (decorate storeAB.logs applePlant)
    (by decide)

/-! ## C1 / C10 — the last-watered lookup and the next-watering projection -/

/-- A byte-order maximum of uniformly rendered timestamps is the rendering
of the chronologically greatest instant. -/
theorem lexmax_uniform_chrono {ts : List String} {dts : List DT} {m : String}
    (hdts : ∀ dt ∈ dts, dt.InRange ∧ dt.aware = true)
    (hmap : ts = dts.map fmtIso)
    (hm : lexMax? ts = some m) :
    ∃ dtm ∈ dts, m = fmtIso dtm ∧ ∀ dt ∈ dts, dt.key ≤ dtm.key := by
  obtain ⟨hmem, hub⟩ := lexMax?_mem_ub hm
  rw [hmap] at hmem hub
  obtain ⟨dtm, hdtm, hfm⟩ := List.mem_map.mp hmem
  subst hfm
  refine ⟨dtm, hdtm, rfl, ?_⟩
  intro dt hdt
  have hx : lexLtB (fmtIsoL dtm) (fmtIsoL dt) = false :=
    hub (fmtIso dt) (List.mem_map_of_mem _ hdt)
  by_contra hlt
  push_neg at hlt
  have h2 := (fmtIsoL_lt_iff (hdts dtm hdtm).1 (hdts dt hdt).1
    ((hdts dtm hdtm).2.trans (hdts dt hdt).2.symm)).mpr hlt
  rw [hx] at h2
  exact absurd h2 (by simp)

/-- The `Z`-suffix ISO-8601 UTC spelling of an instant (integral seconds). -/
def fmtIsoZ (t : DT) : String := ⟨fmtBase t ++ ['Z']⟩

/-- C10: `get_last_watered` returns the stored `watered_at` text greatest
under byte-wise string comparison; absent exactly when there are no
events; with the application's uniform ISO-8601 UTC rendering the selected
text is the chronologically most recent event, but with mixed ISO-8601 UTC
spellings the byte-wise maximum can belong to a chronologically older
event. -/
theorem get_last_watered_lexmax (logs : List WaterLog) (pid : Nat) :
    (get_last_watered logs pid = none ↔ plantLogTimes logs pid = []) ∧
    (∀ m, get_last_watered logs pid = some m →
      m ∈ plantLogTimes logs pid ∧
      ∀ x ∈ plantLogTimes logs pid, lexLtB m.data x.data = false) ∧
    (∀ dts : List DT, (∀ dt ∈ dts, dt.InRange ∧ dt.aware = true) →
      plantLogTimes logs pid = dts.map fmtIso →
      ∀ m, get_last_watered logs pid = some m →
      ∃ dtm ∈ dts, m = fmtIso dtm ∧ ∀ dt ∈ dts, dt.key ≤ dtm.key) ∧
    (∃ t1 t2 : DT, t1.InRange ∧ t2.InRange ∧ t1.key < t2.key ∧
      lexMax? [fmtIso t2, fmtIsoZ t1] = some (fmtIsoZ t1)) := by
  refine ⟨?_, ?_, ?_, ?_⟩
  · unfold get_last_watered
    exact lexMax?_eq_none_iff
  · intro m hm
    exact lexMax?_mem_ub hm
  · intro dts hdts hmap m hm
    exact lexmax_uniform_chrono hdts hmap hm
  · refine ⟨⟨2025, 1, 1, 0, 0, 0, 0, true⟩,
      ⟨2025, 1, 1, 0, 0, 0, 500000, true⟩, by decide, by decide, by decide,
      by decide⟩

/-- C10 witness: the lookup's maximality clause at the two-plant store. -/
theorem get_last_watered_lexmax_witness :
    "2025-01-05T00:00:00+00:00" ∈ plantLogTimes storeTwo.logs 1 ∧
    lexLtB "2025-01-05T00:00:00+00:00".data
      "2025-01-03T00:00:00+00:00".data = false :=
  ⟨((get_last_watered_lexmax storeTwo.logs 1).2.1
      "2025-01-05T00:00:00+00:00" (by decide)).1,
    ((get_last_watered_lexmax storeTwo.logs 1).2.1
      "2025-01-05T00:00:00+00:00" (by decide)).2
      "2025-01-03T00:00:00+00:00" (by decide)⟩
